import Mathlib

/-!
Shallow embedding of the wine-classification hyperparameter-search pipeline
(`wine_classification_hyperparameter_search_v4.py`) together with proofs about
its claims.

The pipeline logic (grid generation, score collection, argmax selection,
split composition, figure assembly) is embedded directly from the source.
External collaborators (sklearn `train_test_split`, the
`RandomForestClassifier` estimator backend, sklearn metric functions) are not
part of the repository; where a claim needs them they are modelled from their
documented contracts, and each such definition says so in its doc comment.
Machine floats are modelled as rationals; a Python exception is modelled as an
`Except.error` value.
-/

namespace WinePipeline

/-- Embeds the `SearchSpace` dataclass: three candidate lists, whose declared
field order (the order of `__annotations__`) is `max_depth`, `max_features`,
`n_estimators`. -/
structure SearchSpace where
  max_depth : List Int
  max_features : List (Option String)
  n_estimators : List Int

/-- Embeds the `Hyperparameters` dataclass: one concrete value per field, in
the same declared field order as `SearchSpace`. -/
structure Hyperparameters where
  max_depth : Int
  max_features : Option String
  n_estimators : Int
deriving DecidableEq

/-- Embeds the exceptions that can propagate out of a task body.
`valueError` stands for a Python `ValueError` (numpy raises one for
`argmax` of an empty sequence); `predictRaised` stands for an arbitrary
exception escaping a `model.predict` call. -/
inductive PyErr where
  | valueError (msg : String)
  | predictRaised (msg : String)

/-- Embeds `create_search_grid`: iterates `search_space.__annotations__` in
declared order (`max_depth`, `max_features`, `n_estimators`) and builds one
`Hyperparameters` per tuple of `itertools.product(*values)`; in that product
the last-listed candidate list varies fastest and the first-listed one varies
slowest. -/
def create_search_grid (s : SearchSpace) : List Hyperparameters :=
  s.max_depth.flatMap fun d =>
    s.max_features.flatMap fun f =>
      s.n_estimators.map fun n => ⟨d, f, n⟩

/-- Task-level view of `create_search_grid`: its Python body (attribute reads,
`itertools.product`, dataclass construction) is total and raises no exception
on any input, so the task yields a normal result for every `SearchSpace`. -/
def create_search_grid_task (s : SearchSpace) : Except PyErr (List Hyperparameters) :=
  Except.ok (create_search_grid s)

/-- Embeds a fitted sklearn `RandomForestClassifier` as far as the pipeline
observes it: the three constructor parameters passed by `train_model` (sklearn
stores every constructor parameter verbatim as an attribute of the same name),
the `random_state` constructor parameter (not passed by `train_model`, sklearn
default `None`), and the learned prediction function.  `predict` returning
`Except.error` models a prediction call that raises. -/
structure RandomForestClassifier (α : Type) where
  max_depth : Int
  max_features : Option String
  n_estimators : Int
  random_state : Option Int
  predict : α → Except String (List Int)

/-- Embeds `train_model`: `RandomForestClassifier(**vars(hyperparameters))`
passes exactly the three `Hyperparameters` fields, so `random_state` keeps its
sklearn default `None`; then `model.fit(X_train, y_train)` learns the
prediction function.  The fitting algorithm itself is the external estimator
backend, modelled here by the parameter `fitImpl`; per the sklearn contract a
fit with `random_state = None` draws from the ambient global RNG, whose state
at call time is modelled by the parameter `rng` (it is not part of the task
inputs). -/
def train_model (fitImpl : Int → Hyperparameters → α → List Int → α → Except String (List Int))
    (rng : Int) (X_train : α) (y_train : List Int)
    (hyperparameters : Hyperparameters) : RandomForestClassifier α :=
  let seed : Int := (Option.none : Option Int).getD rng
  ⟨hyperparameters.max_depth, hyperparameters.max_features, hyperparameters.n_estimators,
    none, fitImpl seed hyperparameters X_train y_train⟩

/-- Embeds the attribute read-back loop of `compare_model_results`:
`getattr(model, name) for name in Hyperparameters.__annotations__`, assembled
back into one `Hyperparameters` row of the score table. -/
def model_params_row (m : RandomForestClassifier α) : Hyperparameters :=
  ⟨m.max_depth, m.max_features, m.n_estimators⟩

/-- Sorted deduplicated list of values, as produced by
`sorted(series.unique().tolist())` and by the label axis sklearn metrics use. -/
def uniqueSorted (l : List Int) : List Int :=
  List.insertionSort (· ≤ ·) l.dedup

/-- Per-class F1 with the sklearn zero-division convention: equals
`2 tp / (2 tp + fp + fn)`, and `0` when that denominator is zero. -/
def f1ForLabel (y_true y_pred : List Int) (c : Int) : Rat :=
  let tp := (y_true.zip y_pred).countP fun q => q.1 == c && q.2 == c
  let fp := (y_true.zip y_pred).countP fun q => !(q.1 == c) && q.2 == c
  let fn := (y_true.zip y_pred).countP fun q => q.1 == c && !(q.2 == c)
  if 2 * tp + fp + fn = 0 then 0
  else ((2 * tp : Nat) : Rat) / ((2 * tp + fp + fn : Nat) : Rat)

/-- Embeds sklearn `f1_score(y_true=.., y_pred=.., average=..)` with the
unweighted averaging used at the call site in `compare_model_results`: the
mean of the per-class F1 over the sorted set of labels occurring in `y_true`
or `y_pred` (the sklearn default `labels=None`).  Modelled from the sklearn
contract; the source calls it with this averaging mode. -/
def f1_score (y_true y_pred : List Int) : Rat :=
  let labels := uniqueSorted (y_true ++ y_pred)
  (labels.map (f1ForLabel y_true y_pred)).sum / (labels.length : Rat)

/-- Tail of `np.argmax`: scans the remaining scores keeping the current best
value and its index; a later element replaces the best only when strictly
greater, so the first occurrence of the maximum wins. -/
def argmaxAux (best : Rat) (bestIdx i : Nat) : List Rat → Nat
  | [] => bestIdx
  | x :: xs => if best < x then argmaxAux x i (i + 1) xs else argmaxAux best bestIdx (i + 1) xs

/-- Embeds `np.array(scores).argmax()`: the index of the first occurrence of
the maximum; `none` models the `ValueError` numpy raises on an empty array. -/
def argmax : List Rat → Option Nat
  | [] => none
  | x :: xs => some (argmaxAux x 0 1 xs)

/-- Embeds the scoring loop of `compare_model_results`: for each model in
order, `yhat = model.predict(X_val)` followed by
`f1_score(y_pred=yhat, y_true=y_val, average=..)` with macro averaging; an
exception from a `predict` call propagates immediately and aborts the task. -/
def scoreLoop (X_val : α) (y_val : List Int) :
    List (RandomForestClassifier α) → Except PyErr (List Rat)
  | [] => Except.ok []
  | m :: rest =>
    match m.predict X_val with
    | Except.error msg => Except.error (PyErr.predictRaised msg)
    | Except.ok yhat =>
      match scoreLoop X_val y_val rest with
      | Except.error e => Except.error e
      | Except.ok scores => Except.ok (f1_score y_val yhat :: scores)

/-- Embeds `compare_model_results`: collect all validation scores, take
`best_index = np.array(scores).argmax()` and return `models[best_index]`.
The score table, parallel-coordinates figure and deck output do not affect the
returned value and the `force_plot` flag only triggers rendering, so they are
omitted.  The embedding is a pure function, hence repeated calls on identical
inputs return the identical result. -/
def compare_model_results (X_val : α) (y_val : List Int)
    (models : List (RandomForestClassifier α)) :
    Except PyErr (RandomForestClassifier α) :=
  match scoreLoop X_val y_val models with
  | Except.error e => Except.error e
  | Except.ok scores =>
    match argmax scores with
    | none => Except.error (PyErr.valueError ("attempt to get argmax of an empty sequence"))
    | some best_index =>
      match models[best_index]? with
      | none => Except.error (PyErr.valueError ("list index out of range"))
      | some best_model => Except.ok best_model

/-- Validation score of one model, when its prediction succeeds: the value the
scoring loop of `compare_model_results` appends for that model. -/
def validationScore (X_val : α) (y_val : List Int)
    (m : RandomForestClassifier α) : Option Rat :=
  match m.predict X_val with
  | Except.error _ => none
  | Except.ok yhat => some (f1_score y_val yhat)

/-- Modelled from the spec: sklearn `train_test_split(X, y, test_size=..,
stratify=.., random_state=..)` is external library code; per its contract it
partitions the rows into two complementary subsets, deterministically for a
fixed seed.  A row is a pair of its pandas index and its content; the seeded
stratified pseudorandom choice of which rows form the second (held-out) part
is abstracted as the predicate `pick` on row indices.  The row order inside
each part is irrelevant to the claims and kept as in the input. -/
def train_test_split (pick : Nat → Bool) (rows : List (Nat × α)) :
    List (Nat × α) × List (Nat × α) :=
  (rows.filter fun r => !pick r.1, rows.filter fun r => pick r.1)

/-- Embeds `split_data`: a first `train_test_split` peels off the test rows,
a second one splits the remainder into train and validation; the task returns
the triple (train, validation, test).  The two seeded choices are the
parameters `pick1` and `pick2`. -/
def split_data (pick1 pick2 : Nat → Bool) (data : List (Nat × α)) :
    List (Nat × α) × List (Nat × α) × List (Nat × α) :=
  let first := train_test_split pick1 data
  let second := train_test_split pick2 first.1
  (second.1, second.2, first.2)

/-- Number of samples with true label `t` and predicted label `p`. -/
def pairCount (y_true y_pred : List Int) (t p : Int) : Nat :=
  (y_true.zip y_pred).countP fun q => q.1 == t && q.2 == p

/-- Embeds sklearn `confusion_matrix(y_true, y_pred)` with its default
`labels=None`: the label axis is the sorted set of values occurring in
`y_true` or `y_pred`; entry (i, j) counts samples with true label i and
predicted label j.  Modelled from the sklearn contract. -/
def confusion_matrix (y_true y_pred : List Int) : List (List Nat) :=
  let labels := uniqueSorted (y_true ++ y_pred)
  labels.map fun t => labels.map fun p => pairCount y_true y_pred t p

/-- The annotated-heatmap figure as far as the claims observe it: the matrix
`z` and the two axis label lists passed to `ff.create_annotated_heatmap`. -/
structure HeatmapFig where
  z : List (List Nat)
  x : List Int
  y : List Int
deriving DecidableEq

/-- Embeds `plot_confusion_matrix`: the matrix is
`confusion_matrix(y_true, y_pred)` while both axis label lists are
`sorted(y_true.target.unique().tolist())`, computed from the true labels
only. -/
def plot_confusion_matrix (y_true y_pred : List Int) : HeatmapFig :=
  ⟨confusion_matrix y_true y_pred, uniqueSorted y_true, uniqueSorted y_true⟩

/-- Embeds `analyze_model`: predict on each of the three partitions and build
one confusion-matrix figure per partition; an exception from a `predict` call
propagates.  The classification reports and the deck rendering are
presentation output and do not affect the figures. -/
def analyze_model (X_train : α) (y_train : List Int) (X_val : α) (y_val : List Int)
    (X_test : α) (y_test : List Int) (model : RandomForestClassifier α) :
    Except PyErr (HeatmapFig × HeatmapFig × HeatmapFig) :=
  match model.predict X_train with
  | Except.error msg => Except.error (PyErr.predictRaised msg)
  | Except.ok yhat_train =>
    match model.predict X_val with
    | Except.error msg => Except.error (PyErr.predictRaised msg)
    | Except.ok yhat_val =>
      match model.predict X_test with
      | Except.error msg => Except.error (PyErr.predictRaised msg)
      | Except.ok yhat_test =>
        Except.ok (plot_confusion_matrix y_train yhat_train,
          plot_confusion_matrix y_val yhat_val,
          plot_confusion_matrix y_test yhat_test)

/-! Helper lemmas about grids. -/

theorem flatMap_length_const {α β : Type _} (f : α → List β) (L : Nat)
    (hL : ∀ a, (f a).length = L) (l : List α) : (l.flatMap f).length = l.length * L := by
  induction l with
  | nil => simp
  | cons a l ih =>
    simp only [List.flatMap_cons, List.length_append, ih, hL, List.length_cons]
    ring

theorem flatMap_getElem?_const {α β : Type _} (f : α → List β) (L : Nat)
    (hL : ∀ a, (f a).length = L) (hpos : 0 < L) (l : List α) (i : Nat) :
    (l.flatMap f)[i]? = l[i / L]?.bind fun a => (f a)[i % L]? := by
  induction l generalizing i with
  | nil => simp
  | cons a l ih =>
    rw [List.flatMap_cons, List.getElem?_append]
    by_cases hi : i < (f a).length
    · have hiL : i < L := by rw [hL a] at hi; exact hi
      rw [if_pos hi, Nat.div_eq_of_lt hiL, Nat.mod_eq_of_lt hiL]
      simp
    · have hiL : L ≤ i := by
        rw [hL a] at hi
        omega
      rw [if_neg hi, hL a, ih (i - L), Nat.div_eq_sub_div hpos hiL,
        Nat.mod_eq_sub_mod hiL]
      simp

theorem mixed_radix_lt {fi ni F N : Nat} (hfi : fi < F) (hni : ni < N) :
    fi * N + ni < F * N := by
  have h1 : fi * N + ni < fi * N + N := Nat.add_lt_add_left hni _
  have h2 : fi * N + N = (fi + 1) * N := by ring
  have h3 : (fi + 1) * N ≤ F * N := Nat.mul_le_mul_right N hfi
  omega

theorem mixed_radix_div {d r M : Nat} (hpos : 0 < M) (hr : r < M) :
    (d * M + r) / M = d := by
  have h : d * M + r = r + M * d := by ring
  rw [h, Nat.add_mul_div_left r d hpos, Nat.div_eq_of_lt hr]
  omega

theorem mixed_radix_mod {d r M : Nat} (hr : r < M) :
    (d * M + r) % M = r := by
  have h : d * M + r = r + M * d := by ring
  rw [h, Nat.add_mul_mod_self_left, Nat.mod_eq_of_lt hr]

theorem inner_grid_length (s : SearchSpace) (d : Int) :
    ((fun d => s.max_features.flatMap fun f =>
      s.n_estimators.map fun n => (⟨d, f, n⟩ : Hyperparameters)) d).length =
      s.max_features.length * s.n_estimators.length := by
  exact flatMap_length_const _ s.n_estimators.length (fun f => List.length_map _ _) _

theorem create_search_grid_getElem (s : SearchSpace)
    (di fi ni : Nat) (d : Int) (f : Option String) (n : Int)
    (hd : s.max_depth[di]? = some d) (hf : s.max_features[fi]? = some f)
    (hn : s.n_estimators[ni]? = some n) :
    (create_search_grid s)[(di * s.max_features.length + fi) * s.n_estimators.length + ni]? =
      some ⟨d, f, n⟩ := by
  have hfi : fi < s.max_features.length := (List.getElem?_eq_some_iff.1 hf).1
  have hni : ni < s.n_estimators.length := (List.getElem?_eq_some_iff.1 hn).1
  have hFpos : 0 < s.max_features.length := Nat.lt_of_le_of_lt (Nat.zero_le _) hfi
  have hNpos : 0 < s.n_estimators.length := Nat.lt_of_le_of_lt (Nat.zero_le _) hni
  have hMpos : 0 < s.max_features.length * s.n_estimators.length :=
    Nat.mul_pos hFpos hNpos
  have hidx : (di * s.max_features.length + fi) * s.n_estimators.length + ni =
      di * (s.max_features.length * s.n_estimators.length) + (fi * s.n_estimators.length + ni) := by
    ring
  have hr : fi * s.n_estimators.length + ni < s.max_features.length * s.n_estimators.length :=
    mixed_radix_lt hfi hni
  rw [create_search_grid, hidx,
    flatMap_getElem?_const _ _ (inner_grid_length s) hMpos,
    mixed_radix_div hMpos hr, mixed_radix_mod hr, hd]
  rw [Option.some_bind]
  rw [flatMap_getElem?_const _ s.n_estimators.length (fun f => List.length_map _ _) hNpos,
    mixed_radix_div hNpos hni, mixed_radix_mod hni, hf]
  rw [Option.some_bind, List.getElem?_map, hn]
  rfl

theorem create_search_grid_eq_product (s : SearchSpace) :
    create_search_grid s =
      ((s.max_depth ×ˢ s.max_features) ×ˢ s.n_estimators).map
        fun p => ⟨p.1.1, p.1.2, p.2⟩ := by
  show create_search_grid s =
    (List.product (List.product s.max_depth s.max_features) s.n_estimators).map
      fun p => (⟨p.1.1, p.1.2, p.2⟩ : Hyperparameters)
  simp only [create_search_grid, List.product, List.map_flatMap, List.flatMap_map,
    List.flatMap_assoc, List.map_map, Function.comp_def]

theorem hyperparameters_of_triple_injective :
    Function.Injective (fun p : (Int × Option String) × Int =>
      (⟨p.1.1, p.1.2, p.2⟩ : Hyperparameters)) := by
  intro p q hpq
  rcases p with ⟨⟨pd, pf⟩, pn⟩
  rcases q with ⟨⟨qd, qf⟩, qn⟩
  injection hpq with h1 h2 h3
  subst h1
  subst h2
  subst h3
  rfl

theorem create_search_grid_nodup (s : SearchSpace)
    (h1 : s.max_depth.Nodup) (h2 : s.max_features.Nodup) (h3 : s.n_estimators.Nodup) :
    (create_search_grid s).Nodup := by
  rw [create_search_grid_eq_product]
  exact List.Nodup.map hyperparameters_of_triple_injective ((h1.product h2).product h3)

/-- C1 counterexample: the claim quantifies over every `SearchSpace` with three
non-empty candidate lists, but a candidate list with a repeated value (here
`max_depth = [1, 1]`) makes `create_search_grid` return a grid with repeated
entries, so the grid is not pairwise distinct and does not contain every
combination exactly once. -/
theorem c1_dup_counterexample :
    (⟨[1, 1], [none], [100]⟩ : SearchSpace).max_depth ≠ [] ∧
    (⟨[1, 1], [none], [100]⟩ : SearchSpace).max_features ≠ [] ∧
    (⟨[1, 1], [none], [100]⟩ : SearchSpace).n_estimators ≠ [] ∧
    ¬ (create_search_grid ⟨[1, 1], [none], [100]⟩).Nodup := by
  decide

/-- C1 (amended): for every `SearchSpace` whose three candidate lists are
non-empty and duplicate-free, the grid returned by `create_search_grid` has
length equal to the product of the candidate-list lengths, contains
pairwise-distinct `Hyperparameters` covering every combination exactly once,
and is ordered by iterating the hyperparameter names in the declared field
order (`max_depth`, `max_features`, `n_estimators`) with the first-listed
hyperparameter varying slowest: the combination built from positions
(di, fi, ni) of the three candidate lists sits at grid position
`(di * F + fi) * N + ni` where F and N are the lengths of the second and third
candidate lists. -/
theorem c1_grid_amended (s : SearchSpace)
    (hne : s.max_depth ≠ [] ∧ s.max_features ≠ [] ∧ s.n_estimators ≠ [])
    (hnd : s.max_depth.Nodup ∧ s.max_features.Nodup ∧ s.n_estimators.Nodup) :
    (create_search_grid s).length =
      s.max_depth.length * s.max_features.length * s.n_estimators.length ∧
    (create_search_grid s).Nodup ∧
    (∀ d f n, d ∈ s.max_depth → f ∈ s.max_features → n ∈ s.n_estimators →
      (⟨d, f, n⟩ : Hyperparameters) ∈ create_search_grid s) ∧
    (∀ h ∈ create_search_grid s,
      h.max_depth ∈ s.max_depth ∧ h.max_features ∈ s.max_features ∧
        h.n_estimators ∈ s.n_estimators) ∧
    (∀ di fi ni d f n, s.max_depth[di]? = some d → s.max_features[fi]? = some f →
      s.n_estimators[ni]? = some n →
      (create_search_grid s)[(di * s.max_features.length + fi) *
          s.n_estimators.length + ni]? = some ⟨d, f, n⟩) := by
  refine ⟨?_, ?_, ?_, ?_, ?_⟩
  · rw [create_search_grid, flatMap_length_const _
      (s.max_features.length * s.n_estimators.length) (inner_grid_length s) s.max_depth]
    ring
  · exact create_search_grid_nodup s hnd.1 hnd.2.1 hnd.2.2
  · intro d f n hd hf hn
    simp only [create_search_grid, List.mem_flatMap, List.mem_map]
    exact ⟨d, hd, f, hf, n, hn, rfl⟩
  · intro h hmem
    simp only [create_search_grid, List.mem_flatMap, List.mem_map] at hmem
    obtain ⟨d, hd, f, hf, n, hn, rfl⟩ := hmem
    exact ⟨hd, hf, hn⟩
  · intro di fi ni d f n hd hf hn
    exact create_search_grid_getElem s di fi ni d f n hd hf hn

/-- C1 amended witness at the concrete search space
`max_depth = [1, 2]`, `max_features = [none]`, `n_estimators = [10, 20]`. -/
theorem c1_grid_amended_witness :
    ((⟨[1, 2], [none], [10, 20]⟩ : SearchSpace).max_depth ≠ [] ∧
      (⟨[1, 2], [none], [10, 20]⟩ : SearchSpace).max_features ≠ [] ∧
      (⟨[1, 2], [none], [10, 20]⟩ : SearchSpace).n_estimators ≠ []) ∧
    ((⟨[1, 2], [none], [10, 20]⟩ : SearchSpace).max_depth.Nodup ∧
      (⟨[1, 2], [none], [10, 20]⟩ : SearchSpace).max_features.Nodup ∧
      (⟨[1, 2], [none], [10, 20]⟩ : SearchSpace).n_estimators.Nodup) ∧
    (create_search_grid ⟨[1, 2], [none], [10, 20]⟩).length =
      (⟨[1, 2], [none], [10, 20]⟩ : SearchSpace).max_depth.length *
        (⟨[1, 2], [none], [10, 20]⟩ : SearchSpace).max_features.length *
        (⟨[1, 2], [none], [10, 20]⟩ : SearchSpace).n_estimators.length ∧
    (create_search_grid ⟨[1, 2], [none], [10, 20]⟩).Nodup :=
  ⟨by decide, by decide,
    (c1_grid_amended ⟨[1, 2], [none], [10, 20]⟩ (by decide) (by decide)).1,
    (c1_grid_amended ⟨[1, 2], [none], [10, 20]⟩ (by decide) (by decide)).2.1⟩

/-- C6 counterexample: for the SearchSpace with `max_depth = []` the claim
says `create_search_grid` fails with an `InvalidSearchSpace` error rather than
returning a grid; instead the call succeeds and returns the empty grid. -/
theorem c6_empty_counterexample :
    create_search_grid_task ⟨[], [none], [100]⟩ = Except.ok [] := rfl

/-- C6 (amended): for every `SearchSpace` the task succeeds and raises no
exception (the source performs no validation, so in particular every
`SearchSpace` with all candidate lists non-empty succeeds with no side
effects), and for every `SearchSpace` in which at least one candidate list is
empty the result of that success is the empty grid, not an
`InvalidSearchSpace` failure. -/
theorem c6_empty_amended (s : SearchSpace) :
    create_search_grid_task s = Except.ok (create_search_grid s) ∧
    (s.max_depth = [] ∨ s.max_features = [] ∨ s.n_estimators = [] →
      create_search_grid s = [] ∧ create_search_grid_task s = Except.ok []) := by
  refine ⟨rfl, fun h => ?_⟩
  have hg : create_search_grid s = [] := by
    rcases h with h | h | h <;> simp [create_search_grid, h]
  exact ⟨hg, by rw [create_search_grid_task, hg]⟩

/-- C6 amended witness at the concrete search space with empty `max_depth`:
the emptiness antecedent holds there and the task succeeds with the empty
grid. -/
theorem c6_empty_amended_witness :
    ((⟨[], [none], [100]⟩ : SearchSpace).max_depth = [] ∨
      (⟨[], [none], [100]⟩ : SearchSpace).max_features = [] ∨
      (⟨[], [none], [100]⟩ : SearchSpace).n_estimators = []) ∧
    create_search_grid ⟨[], [none], [100]⟩ = [] ∧
    create_search_grid_task ⟨[], [none], [100]⟩ = Except.ok [] :=
  ⟨Or.inl rfl, (c6_empty_amended ⟨[], [none], [100]⟩).2 (Or.inl rfl)⟩

/-! Helper lemmas about argmax and the scoring loop. -/

theorem argmaxAux_of_all_le (l : List Rat) :
    ∀ (best : Rat) (bestIdx i : Nat), (∀ (k : Nat) (x : Rat), l[k]? = some x → x ≤ best) →
      argmaxAux best bestIdx i l = bestIdx := by
  induction l with
  | nil => intro best bestIdx i hall; rfl
  | cons x xs ih =>
    intro best bestIdx i hall
    have hx : x ≤ best := hall 0 x (by simp)
    rw [argmaxAux, if_neg (not_lt.mpr hx)]
    exact ih best bestIdx (i + 1) fun k y hk => hall (k + 1) y (by simpa using hk)

theorem argmaxAux_max (l : List Rat) :
    ∀ (best : Rat) (bestIdx i : Nat),
      (argmaxAux best bestIdx i l = bestIdx ∧
        ∀ (k : Nat) (x : Rat), l[k]? = some x → x ≤ best) ∨
      (∃ (k : Nat) (x : Rat), l[k]? = some x ∧ argmaxAux best bestIdx i l = i + k ∧ best < x ∧
        ∀ (j : Nat) (y : Rat), l[j]? = some y → y ≤ x) := by
  induction l with
  | nil =>
    intro best bestIdx i
    exact Or.inl ⟨rfl, fun k x hk => by simp at hk⟩
  | cons x xs ih =>
    intro best bestIdx i
    by_cases hx : best < x
    · rw [argmaxAux, if_pos hx]
      rcases ih x i (i + 1) with ⟨heq, hall⟩ | ⟨k, w, hk, heq, hlt, hall⟩
      · refine Or.inr ⟨0, x, by simp, by omega, hx, ?_⟩
        intro j y hj
        match j with
        | 0 =>
          have hxy : x = y := by simpa using hj
          exact hxy ▸ le_refl x
        | j + 1 => exact hall j y (by simpa using hj)
      · refine Or.inr ⟨k + 1, w, by simpa using hk, by omega, lt_trans hx hlt, ?_⟩
        intro j y hj
        match j with
        | 0 =>
          have hxy : x = y := by simpa using hj
          exact hxy ▸ le_of_lt hlt
        | j + 1 => exact hall j y (by simpa using hj)
    · rw [argmaxAux, if_neg hx]
      rcases ih best bestIdx (i + 1) with ⟨heq, hall⟩ | ⟨k, w, hk, heq, hlt, hall⟩
      · refine Or.inl ⟨heq, ?_⟩
        intro k y hky
        match k with
        | 0 =>
          have hxy : x = y := by simpa using hky
          exact hxy ▸ le_of_not_lt hx
        | k + 1 => exact hall k y (by simpa using hky)
      · refine Or.inr ⟨k + 1, w, by simpa using hk, by omega, hlt, ?_⟩
        intro j y hj
        match j with
        | 0 =>
          have hxy : x = y := by simpa using hj
          exact hxy ▸ le_of_lt (lt_of_le_of_lt (le_of_not_lt hx) hlt)
        | j + 1 => exact hall j y (by simpa using hj)

theorem argmaxAux_first (l : List Rat) :
    ∀ (best : Rat) (bestIdx i k : Nat) (w : Rat), l[k]? = some w → best < w →
      (∀ (j : Nat) (y : Rat), l[j]? = some y → y ≤ w) →
      (∀ (j : Nat) (y : Rat), j < k → l[j]? = some y → y < w) →
      argmaxAux best bestIdx i l = i + k := by
  induction l with
  | nil => intro best bestIdx i k w hk; simp at hk
  | cons x xs ih =>
    intro best bestIdx i k w hk hbw hall hfirst
    match k with
    | 0 =>
      have hxw : x = w := by simpa using hk
      rw [argmaxAux, if_pos (hxw ▸ hbw)]
      have : argmaxAux w i (i + 1) xs = i := by
        apply argmaxAux_of_all_le
        intro j y hj
        exact hall (j + 1) y (by simpa using hj)
      rw [hxw, this]
      omega
    | k + 1 =>
      have hxlt : x < w := hfirst 0 x (Nat.succ_pos k) (by simp)
      have hk2 : xs[k]? = some w := by simpa using hk
      have hall2 : ∀ (j : Nat) (y : Rat), xs[j]? = some y → y ≤ w := fun j y hj =>
        hall (j + 1) y (by simpa using hj)
      have hfirst2 : ∀ (j : Nat) (y : Rat), j < k → xs[j]? = some y → y < w :=
        fun j y hjk hj => hfirst (j + 1) y (by omega) (by simpa using hj)
      by_cases hbx : best < x
      · rw [argmaxAux, if_pos hbx]
        have := ih x i (i + 1) k w hk2 hxlt hall2 hfirst2
        omega
      · rw [argmaxAux, if_neg hbx]
        have := ih best bestIdx (i + 1) k w hk2 hbw hall2 hfirst2
        omega

theorem argmax_max (ss : List Rat) (r : Nat) (h : argmax ss = some r) :
    ∃ v : Rat, ss[r]? = some v ∧ ∀ (j : Nat) (w : Rat), ss[j]? = some w → w ≤ v := by
  match ss with
  | [] => simp [argmax] at h
  | x :: xs =>
    have hr : argmaxAux x 0 1 xs = r := by
      rw [argmax] at h
      exact Option.some_injective _ h
    rcases argmaxAux_max xs x 0 1 with ⟨heq, hall⟩ | ⟨k, w, hk, heq, hlt, hall⟩
    · refine ⟨x, ?_, ?_⟩
      · rw [← hr, heq]; simp
      · intro j y hj
        match j with
        | 0 =>
          have : x = y := by simpa using hj
          exact this ▸ le_refl x
        | j + 1 => exact hall j y (by simpa using hj)
    · refine ⟨w, ?_, ?_⟩
      · rw [← hr, heq]
        have h1k : 1 + k = k + 1 := by omega
        rw [h1k]
        simpa using hk
      · intro j y hj
        match j with
        | 0 =>
          have : x = y := by simpa using hj
          exact this ▸ le_of_lt hlt
        | j + 1 => exact hall j y (by simpa using hj)

theorem argmax_first (ss : List Rat) (i : Nat) (v : Rat) (hv : ss[i]? = some v)
    (hall : ∀ (j : Nat) (w : Rat), ss[j]? = some w → w ≤ v)
    (hfirst : ∀ (j : Nat) (w : Rat), j < i → ss[j]? = some w → w < v) :
    argmax ss = some i := by
  match ss with
  | [] => simp at hv
  | x :: xs =>
    rw [argmax]
    match i with
    | 0 =>
      have hxv : x = v := by simpa using hv
      have : argmaxAux x 0 1 xs = 0 := by
        apply argmaxAux_of_all_le
        intro j y hj
        exact hxv ▸ hall (j + 1) y (by simpa using hj)
      rw [this]
    | i + 1 =>
      have hxlt : x < v := hfirst 0 x (Nat.succ_pos i) (by simp)
      have : argmaxAux x 0 1 xs = 1 + i := by
        apply argmaxAux_first xs x 0 1 i v (by simpa using hv) hxlt
        · intro j y hj
          exact hall (j + 1) y (by simpa using hj)
        · intro j y hji hj
          exact hfirst (j + 1) y (by omega) (by simpa using hj)
      rw [this]
      congr 1
      omega

/-! Helper lemmas about the scoring loop of `compare_model_results`. -/

theorem scoreLoop_ok_spec {α : Type} (X_val : α) (y_val : List Int) :
    ∀ (models : List (RandomForestClassifier α)) (scores : List Rat),
      scoreLoop X_val y_val models = Except.ok scores →
      scores.length = models.length ∧
      ∀ (j : Nat) (m : RandomForestClassifier α), models[j]? = some m →
        ∃ p, m.predict X_val = Except.ok p ∧ scores[j]? = some (f1_score y_val p) := by
  intro models
  induction models with
  | nil =>
    intro scores h
    rw [scoreLoop] at h
    have : scores = [] := (Except.ok.injEq _ _ ▸ h).symm ▸ rfl
    cases this
    exact ⟨rfl, fun j m hj => by simp at hj⟩
  | cons m rest ih =>
    intro scores h
    rw [scoreLoop] at h
    rcases hp : m.predict X_val with msg | yhat <;> rw [hp] at h
    · cases h
    rcases hs : scoreLoop X_val y_val rest with e | ss <;> rw [hs] at h
    · cases h
    have hscores : scores = f1_score y_val yhat :: ss := by
      cases h
      rfl
    cases hscores
    obtain ⟨hlen, hspec⟩ := ih ss hs
    refine ⟨by simp [hlen], ?_⟩
    intro j mm hj
    match j with
    | 0 =>
      have : m = mm := by simpa using hj
      exact ⟨yhat, this ▸ hp, by simp⟩
    | j + 1 =>
      obtain ⟨p, hp2, hs2⟩ := hspec j mm (by simpa using hj)
      exact ⟨p, hp2, by simpa using hs2⟩

theorem scoreLoop_ok_total {α : Type} (X_val : α) (y_val : List Int) :
    ∀ models : List (RandomForestClassifier α),
      (∀ m ∈ models, ∃ p, m.predict X_val = Except.ok p) →
      ∃ scores, scoreLoop X_val y_val models = Except.ok scores := by
  intro models
  induction models with
  | nil => intro _; exact ⟨[], rfl⟩
  | cons m rest ih =>
    intro hall
    obtain ⟨p, hp⟩ := hall m (List.mem_cons_self m rest)
    obtain ⟨ss, hss⟩ := ih fun m2 hm2 => hall m2 (List.mem_cons_of_mem m hm2)
    exact ⟨f1_score y_val p :: ss, by rw [scoreLoop, hp, hss]⟩

theorem scoreLoop_error_of_mem {α : Type} (X_val : α) (y_val : List Int) :
    ∀ (models : List (RandomForestClassifier α)) (m : RandomForestClassifier α)
      (msg : String), m ∈ models → m.predict X_val = Except.error msg →
      ∃ e, scoreLoop X_val y_val models = Except.error e := by
  intro models
  induction models with
  | nil => intro m msg hm; cases hm
  | cons a rest ih =>
    intro m msg hm hp
    rcases List.mem_cons.1 hm with rfl | hm2
    · exact ⟨PyErr.predictRaised msg, by rw [scoreLoop, hp]⟩
    · rcases ha : a.predict X_val with amsg | ay
      · exact ⟨PyErr.predictRaised amsg, by rw [scoreLoop, ha]⟩
      · obtain ⟨e, he⟩ := ih m msg hm2 hp
        exact ⟨e, by rw [scoreLoop, ha, he]⟩

theorem compare_of_parts {α : Type} (X_val : α) (y_val : List Int)
    (models : List (RandomForestClassifier α)) (scores : List Rat) (i : Nat)
    (m : RandomForestClassifier α) (hs : scoreLoop X_val y_val models = Except.ok scores)
    (ha : argmax scores = some i) (hm : models[i]? = some m) :
    compare_model_results X_val y_val models = Except.ok m := by
  simp only [compare_model_results, hs, ha, hm]

theorem compare_error_of_scoreLoop_error {α : Type} (X_val : α) (y_val : List Int)
    (models : List (RandomForestClassifier α)) (e : PyErr)
    (hs : scoreLoop X_val y_val models = Except.error e) :
    compare_model_results X_val y_val models = Except.error e := by
  simp only [compare_model_results, hs]

theorem compare_ok_argmax_none {α : Type} (X_val : α) (y_val : List Int)
    (models : List (RandomForestClassifier α)) (scores : List Rat)
    (hs : scoreLoop X_val y_val models = Except.ok scores) (ha : argmax scores = none) :
    compare_model_results X_val y_val models =
      Except.error (PyErr.valueError ("attempt to get argmax of an empty sequence")) := by
  simp only [compare_model_results, hs, ha]

theorem compare_ok_index_none {α : Type} (X_val : α) (y_val : List Int)
    (models : List (RandomForestClassifier α)) (scores : List Rat) (i : Nat)
    (hs : scoreLoop X_val y_val models = Except.ok scores) (ha : argmax scores = some i)
    (hm : models[i]? = none) :
    compare_model_results X_val y_val models =
      Except.error (PyErr.valueError ("list index out of range")) := by
  simp only [compare_model_results, hs, ha, hm]

theorem compare_parts_of_ok {α : Type} (X_val : α) (y_val : List Int)
    (models : List (RandomForestClassifier α)) (m : RandomForestClassifier α)
    (h : compare_model_results X_val y_val models = Except.ok m) :
    ∃ (scores : List Rat) (i : Nat), scoreLoop X_val y_val models = Except.ok scores ∧
      argmax scores = some i ∧ models[i]? = some m := by
  rcases hs : scoreLoop X_val y_val models with e | ss
  · rw [compare_error_of_scoreLoop_error X_val y_val models e hs] at h
    cases h
  · rcases ha : argmax ss with _ | i
    · rw [compare_ok_argmax_none X_val y_val models ss hs ha] at h
      cases h
    · rcases hm : models[i]? with _ | mm
      · rw [compare_ok_index_none X_val y_val models ss i hs ha hm] at h
        cases h
      · rw [compare_of_parts X_val y_val models ss i mm hs ha hm] at h
        cases h
        exact ⟨ss, i, rfl, ha, hm⟩

/-- C7: when `compare_model_results` is given an empty list of trained models,
the scoring loop produces an empty score list and `np.array([]).argmax()`
raises; the task fails with the error the spec calls `EmptyModelSet`
(concretely, the `ValueError` numpy raises for an empty argmax). -/
theorem c7_empty_models_error {α : Type} (X_val : α) (y_val : List Int) :
    compare_model_results X_val y_val ([] : List (RandomForestClassifier α)) =
      Except.error (PyErr.valueError ("attempt to get argmax of an empty sequence")) := rfl

/-- Concrete model on trivial features whose prediction succeeds. -/
def rfc_ok_const : RandomForestClassifier Unit :=
  ⟨50, none, 100, none, fun _ => Except.ok [0]⟩

/-- Concrete model on trivial features whose prediction raises. -/
def rfc_raises : RandomForestClassifier Unit :=
  ⟨50, none, 100, none, fun _ => Except.error ("boom")⟩

/-- C5 counterexample: with a concrete model list in which the second model
raises on `predict`, `compare_model_results` does not exclude that model and
select among the rest; the exception propagates and the whole selection task
fails. -/
theorem c5_raise_counterexample :
    compare_model_results () [0] [rfc_ok_const, rfc_raises] =
      Except.error (PyErr.predictRaised ("boom")) := rfl

/-- C5 (amended): if any model in the list raises on `predict`, the selection
as a whole fails: `compare_model_results` returns an error rather than a best
model (there is no per-model exclusion in the source). -/
theorem c5_raise_amended {α : Type} (X_val : α) (y_val : List Int)
    (models : List (RandomForestClassifier α)) (m : RandomForestClassifier α)
    (msg : String) (hm : m ∈ models) (hp : m.predict X_val = Except.error msg) :
    ∃ e, compare_model_results X_val y_val models = Except.error e := by
  obtain ⟨e, he⟩ := scoreLoop_error_of_mem X_val y_val models m msg hm hp
  exact ⟨e, compare_error_of_scoreLoop_error X_val y_val models e he⟩

/-- C5 amended witness at the concrete two-model list with one raising
model. -/
theorem c5_raise_amended_witness :
    rfc_raises ∈ [rfc_ok_const, rfc_raises] ∧
    rfc_raises.predict () = Except.error ("boom") ∧
    ∃ e, compare_model_results () [0] [rfc_ok_const, rfc_raises] = Except.error e :=
  ⟨List.mem_cons_of_mem _ (List.mem_cons_self _ _), rfl,
    c5_raise_amended () [0] [rfc_ok_const, rfc_raises] rfc_raises ("boom")
      (List.mem_cons_of_mem _ (List.mem_cons_self _ _)) rfl⟩

/-- C3: for every non-empty model list on which every prediction succeeds,
the selection succeeds and the returned best model maximizes the
macro-averaged F1 score (the metric hard-coded at the `f1_score` call site)
on the validation partition: its score is greater than or equal to the score
of every model in the list. -/
theorem c3_best_f1_ge_all {α : Type} (X_val : α) (y_val : List Int)
    (models : List (RandomForestClassifier α)) (hne : models ≠ [])
    (hall_ok : ∀ m ∈ models, ∃ p, m.predict X_val = Except.ok p) :
    ∃ best, compare_model_results X_val y_val models = Except.ok best ∧
      best ∈ models ∧
      ∀ m ∈ models, ∀ (yhat yhat_best : List Int),
        m.predict X_val = Except.ok yhat → best.predict X_val = Except.ok yhat_best →
        f1_score y_val yhat ≤ f1_score y_val yhat_best := by
  obtain ⟨scores, hs⟩ := scoreLoop_ok_total X_val y_val models hall_ok
  obtain ⟨hlen, hspec⟩ := scoreLoop_ok_spec X_val y_val models scores hs
  obtain ⟨i, ha⟩ : ∃ i, argmax scores = some i := by
    match scores, hlen with
    | [], hlen => exact absurd (List.length_eq_zero.1 hlen.symm) hne
    | x :: xs, _ => exact ⟨argmaxAux x 0 1 xs, rfl⟩
  obtain ⟨v, hv, hmax⟩ := argmax_max scores i ha
  have hilen : i < models.length := by
    have := (List.getElem?_eq_some_iff.1 hv).1
    rw [hlen] at this
    exact this
  obtain ⟨best, hmi⟩ : ∃ best, models[i]? = some best :=
    ⟨models[i], List.getElem?_eq_some_iff.2 ⟨hilen, rfl⟩⟩
  refine ⟨best, compare_of_parts X_val y_val models scores i best hs ha hmi,
    List.mem_iff_getElem?.2 ⟨i, hmi⟩, ?_⟩
  intro m hm yhat yhat_best hp hpb
  obtain ⟨p, hp2, hsi⟩ := hspec i best hmi
  have hpeq : p = yhat_best := by
    rw [hp2] at hpb
    exact Except.ok.inj hpb
  have hvi : v = f1_score y_val p := by
    rw [hsi] at hv
    exact (Option.some.inj hv).symm
  obtain ⟨j, hj⟩ := List.mem_iff_getElem?.1 hm
  obtain ⟨q, hq2, hsj⟩ := hspec j m hj
  have hqeq : q = yhat := by
    rw [hq2] at hp
    exact Except.ok.inj hp
  have hle : f1_score y_val q ≤ v := hmax j (f1_score y_val q) hsj
  rw [hvi, hpeq, hqeq] at hle
  exact hle

/-- C2: when every model scores successfully and the model at position i
attains the maximum validation score while every earlier position scores
strictly below it (so position i is the first maximizer, covering the case of
two or more models tied at the maximum further right), `compare_model_results`
returns exactly the model at position i — the earliest maximizer in
grid-generation order.  The second conjunct records that repeated calls on
the same inputs return the same result (the embedding is a pure function). -/
theorem c2_tie_break_first {α : Type} (X_val : α) (y_val : List Int)
    (models : List (RandomForestClassifier α)) (i : Nat)
    (m : RandomForestClassifier α) (s : Rat)
    (hall_ok : ∀ m2 ∈ models, ∃ p, m2.predict X_val = Except.ok p)
    (hi : models[i]? = some m)
    (hsi : validationScore X_val y_val m = some s)
    (hmax : ∀ (j : Nat) (m2 : RandomForestClassifier α) (s2 : Rat),
      models[j]? = some m2 → validationScore X_val y_val m2 = some s2 → s2 ≤ s)
    (hfirst : ∀ (j : Nat) (m2 : RandomForestClassifier α) (s2 : Rat), j < i →
      models[j]? = some m2 → validationScore X_val y_val m2 = some s2 → s2 < s) :
    compare_model_results X_val y_val models = Except.ok m ∧
    compare_model_results X_val y_val models = compare_model_results X_val y_val models := by
  obtain ⟨scores, hs⟩ := scoreLoop_ok_total X_val y_val models hall_ok
  obtain ⟨hlen, hspec⟩ := scoreLoop_ok_spec X_val y_val models scores hs
  have hvs : ∀ (j : Nat) (m2 : RandomForestClassifier α), models[j]? = some m2 →
      ∃ s2, scores[j]? = some s2 ∧ validationScore X_val y_val m2 = some s2 := by
    intro j m2 hj
    obtain ⟨p, hp, hsj⟩ := hspec j m2 hj
    exact ⟨f1_score y_val p, hsj, by rw [validationScore, hp]⟩
  obtain ⟨si, hsi2, hvi⟩ := hvs i m hi
  have hsis : si = s := by
    rw [hvi] at hsi
    exact Option.some.inj hsi
  subst hsis
  have hmodel_at : ∀ j : Nat, j < scores.length → ∃ m2, models[j]? = some m2 := by
    intro j hjlt
    have hjm : j < models.length := by
      rw [hlen] at hjlt
      exact hjlt
    exact ⟨models[j], List.getElem?_eq_some_iff.2 ⟨hjm, rfl⟩⟩
  have ha : argmax scores = some i := by
    apply argmax_first scores i si hsi2
    · intro j w hj
      obtain ⟨m2, hm2⟩ := hmodel_at j (List.getElem?_eq_some_iff.1 hj).1
      obtain ⟨w2, hw2, hvw⟩ := hvs j m2 hm2
      have hww : w2 = w := by
        rw [hw2] at hj
        exact Option.some.inj hj
      exact hww ▸ hmax j m2 w2 hm2 hvw
    · intro j w hji hj
      obtain ⟨m2, hm2⟩ := hmodel_at j (List.getElem?_eq_some_iff.1 hj).1
      obtain ⟨w2, hw2, hvw⟩ := hvs j m2 hm2
      have hww : w2 = w := by
        rw [hw2] at hj
        exact Option.some.inj hj
      exact hww ▸ hfirst j m2 w2 hji hm2 hvw
  exact ⟨compare_of_parts X_val y_val models scores i m hs ha hi, rfl⟩

/-- Concrete model predicting [0, 1]; ties with `rfc_tie_b`. -/
def rfc_tie_a : RandomForestClassifier Unit :=
  ⟨50, none, 100, none, fun _ => Except.ok [0, 1]⟩

/-- Concrete model with different hyperparameters but the same predictions as
`rfc_tie_a`, so both models attain the same validation score. -/
def rfc_tie_b : RandomForestClassifier Unit :=
  ⟨50, none, 2000, none, fun _ => Except.ok [0, 1]⟩

/-- C2 witness: two models tied at the maximum score; the first one is
returned. -/
theorem c2_tie_break_first_witness :
    (([rfc_tie_a, rfc_tie_b] : List (RandomForestClassifier Unit))[0]? = some rfc_tie_a) ∧
    validationScore () [0, 1] rfc_tie_a = some (f1_score [0, 1] [0, 1]) ∧
    compare_model_results () [0, 1] [rfc_tie_a, rfc_tie_b] = Except.ok rfc_tie_a := by
  refine ⟨rfl, rfl, ?_⟩
  refine (c2_tie_break_first () [0, 1] [rfc_tie_a, rfc_tie_b] 0 rfc_tie_a
    (f1_score [0, 1] [0, 1]) ?_ rfl rfl ?_ ?_).1
  · intro m2 hm2
    rcases List.mem_cons.1 hm2 with rfl | hm3
    · exact ⟨[0, 1], rfl⟩
    rcases List.mem_cons.1 hm3 with rfl | hm4
    · exact ⟨[0, 1], rfl⟩
    cases hm4
  · intro j m2 s2 hj hv2
    match j with
    | 0 =>
      have hm2 : rfc_tie_a = m2 := by simpa using hj
      subst hm2
      have hs2 : some (f1_score [0, 1] [0, 1]) = some s2 := hv2
      exact le_of_eq (Option.some.inj hs2).symm
    | 1 =>
      have hm2 : rfc_tie_b = m2 := by simpa using hj
      subst hm2
      have hs2 : some (f1_score [0, 1] [0, 1]) = some s2 := hv2
      exact le_of_eq (Option.some.inj hs2).symm
    | j + 2 => simp at hj
  · intro j m2 s2 hj0 _ _
    exact absurd hj0 (Nat.not_lt_zero j)

/-- C3 witness: a non-empty list of two tied models on which every prediction
succeeds; the selection succeeds with a maximizing best model. -/
theorem c3_best_f1_ge_all_witness :
    ([rfc_tie_a, rfc_tie_b] : List (RandomForestClassifier Unit)) ≠ [] ∧
    (∀ m ∈ ([rfc_tie_a, rfc_tie_b] : List (RandomForestClassifier Unit)),
      ∃ p, m.predict () = Except.ok p) ∧
    ∃ best, compare_model_results () [0, 1] [rfc_tie_a, rfc_tie_b] = Except.ok best ∧
      best ∈ [rfc_tie_a, rfc_tie_b] ∧
      ∀ m ∈ ([rfc_tie_a, rfc_tie_b] : List (RandomForestClassifier Unit)),
        ∀ (yhat yhat_best : List Int),
        m.predict () = Except.ok yhat → best.predict () = Except.ok yhat_best →
        f1_score [0, 1] yhat ≤ f1_score [0, 1] yhat_best := by
  have hall : ∀ m ∈ ([rfc_tie_a, rfc_tie_b] : List (RandomForestClassifier Unit)),
      ∃ p, m.predict () = Except.ok p := by
    intro m2 hm2
    rcases List.mem_cons.1 hm2 with rfl | hm3
    · exact ⟨[0, 1], rfl⟩
    rcases List.mem_cons.1 hm3 with rfl | hm4
    · exact ⟨[0, 1], rfl⟩
    cases hm4
  exact ⟨List.cons_ne_nil _ _, hall,
    c3_best_f1_ge_all () [0, 1] [rfc_tie_a, rfc_tie_b] (List.cons_ne_nil _ _) hall⟩

/-- C4: the three partitions produced by `split_data` are pairwise disjoint
and together are a permutation of the input dataset, so every row of the input
appears in exactly one of train, validation and test and the partition sizes
sum to the total row count.  This holds for every seeded choice the two
stratified splits can make (the two `pick` parameters). -/
theorem c4_split_partition {α : Type} (pick1 pick2 : Nat → Bool) (data : List (Nat × α)) :
    ((split_data pick1 pick2 data).1 ++ (split_data pick1 pick2 data).2.1 ++
      (split_data pick1 pick2 data).2.2).Perm data ∧
    (split_data pick1 pick2 data).1.length + (split_data pick1 pick2 data).2.1.length +
      (split_data pick1 pick2 data).2.2.length = data.length ∧
    (split_data pick1 pick2 data).1.Disjoint (split_data pick1 pick2 data).2.1 ∧
    (split_data pick1 pick2 data).1.Disjoint (split_data pick1 pick2 data).2.2 ∧
    (split_data pick1 pick2 data).2.1.Disjoint (split_data pick1 pick2 data).2.2 := by
  have hsd : split_data pick1 pick2 data =
      ((data.filter fun r => !pick1 r.1).filter fun r => !pick2 r.1,
        (data.filter fun r => !pick1 r.1).filter fun r => pick2 r.1,
        data.filter fun r => pick1 r.1) := rfl
  rw [hsd]
  dsimp only
  have hperm : (((data.filter fun r => !pick1 r.1).filter fun r => !pick2 r.1) ++
      ((data.filter fun r => !pick1 r.1).filter fun r => pick2 r.1) ++
      (data.filter fun r => pick1 r.1)).Perm data := by
    have h1 : (((data.filter fun r => !pick1 r.1).filter fun r => !pick2 r.1) ++
        ((data.filter fun r => !pick1 r.1).filter fun r => pick2 r.1)).Perm
        (data.filter fun r => !pick1 r.1) :=
      List.perm_append_comm.trans
        (List.filter_append_perm (fun r => pick2 r.1) (data.filter fun r => !pick1 r.1))
    have h2 : ((data.filter fun r => pick1 r.1) ++
        (data.filter fun r => !pick1 r.1)).Perm data :=
      List.filter_append_perm (fun r => pick1 r.1) data
    exact (h1.append (List.Perm.refl _)).trans (List.perm_append_comm.trans h2)
  refine ⟨hperm, ?_, ?_, ?_, ?_⟩
  · have := hperm.length_eq
    simp only [List.length_append] at this
    omega
  · intro a h1 h2
    rw [List.mem_filter] at h1 h2
    simp [h2.2] at h1
  · intro a h1 h2
    rw [List.mem_filter] at h1 h2
    have h3 := (List.mem_filter.1 h1.1).2
    simp [h2.2] at h3
  · intro a h1 h2
    rw [List.mem_filter] at h1 h2
    have h3 := (List.mem_filter.1 h1.1).2
    simp [h2.2] at h3

/-! Helper lemmas about the sorted label axis. -/

theorem mem_uniqueSorted (l : List Int) (x : Int) : x ∈ uniqueSorted l ↔ x ∈ l :=
  ((List.perm_insertionSort _ _).mem_iff).trans List.mem_dedup

theorem nodup_uniqueSorted (l : List Int) : (uniqueSorted l).Nodup :=
  (List.nodup_dedup l).perm (List.perm_insertionSort _ _).symm

theorem sorted_uniqueSorted (l : List Int) : List.Sorted (· ≤ ·) (uniqueSorted l) :=
  List.sorted_insertionSort _ _

theorem uniqueSorted_append_subset (a b : List Int) (h : ∀ v ∈ b, v ∈ a) :
    uniqueSorted (a ++ b) = uniqueSorted a := by
  apply List.eq_of_perm_of_sorted _ (sorted_uniqueSorted _) (sorted_uniqueSorted _)
  rw [List.perm_ext_iff_of_nodup (nodup_uniqueSorted _) (nodup_uniqueSorted _)]
  intro x
  rw [mem_uniqueSorted, mem_uniqueSorted, List.mem_append]
  constructor
  · rintro (hx | hx)
    · exact hx
    · exact h x hx
  · exact Or.inl

theorem plot_dims_of_subset (y_true y_pred : List Int) (h : ∀ v ∈ y_pred, v ∈ y_true) :
    (plot_confusion_matrix y_true y_pred).x = uniqueSorted y_true ∧
    (plot_confusion_matrix y_true y_pred).z.length = (uniqueSorted y_true).length ∧
    ∀ row ∈ (plot_confusion_matrix y_true y_pred).z,
      row.length = (uniqueSorted y_true).length := by
  refine ⟨rfl, ?_, ?_⟩
  · show (confusion_matrix y_true y_pred).length = _
    rw [confusion_matrix, uniqueSorted_append_subset y_true y_pred h]
    simp
  · intro row hrow
    have hrow2 : row ∈ confusion_matrix y_true y_pred := hrow
    rw [confusion_matrix, uniqueSorted_append_subset y_true y_pred h] at hrow2
    obtain ⟨t, ht, rfl⟩ := List.mem_map.1 hrow2
    simp

/-- C8 counterexample: with `y_true = [0, 0]` and `y_pred = [1, 1]` the
confusion matrix is computed over the sorted union {0, 1} of observed true
and predicted labels, a 2 by 2 matrix, while the sorted set of labels
observed among the true labels is just [0]; the matrix is not computed over
the true-label set alone, and the rendered figure axis length differs from
the matrix dimension. -/
theorem c8_axis_counterexample :
    (confusion_matrix [0, 0] [1, 1]).length = 2 ∧
    uniqueSorted [0, 0] = [0] ∧
    (plot_confusion_matrix [0, 0] [1, 1]).z.length ≠
      (plot_confusion_matrix [0, 0] [1, 1]).x.length := by
  decide

/-- C8 (amended): for each partition evaluated by `analyze_model`, the
confusion matrix is computed over the sorted set of label values observed in
that partition (in the true labels together with the predicted labels), and
the axis labels of the rendered matrix are the sorted label values observed
in that partition's true labels.  When every predicted label of the partition
also occurs among its true labels these coincide: matrix dimensions and axis
labels both reflect exactly the labels observed in that partition, even when
that set is a strict subset of the global label set (no global information
enters). -/
theorem c8_axis_amended {α : Type} (X_train : α) (y_train : List Int) (X_val : α)
    (y_val : List Int) (X_test : α) (y_test : List Int)
    (model : RandomForestClassifier α) (yhat_tr yhat_v yhat_te : List Int)
    (h1 : model.predict X_train = Except.ok yhat_tr)
    (h2 : ∀ v ∈ yhat_tr, v ∈ y_train)
    (h3 : model.predict X_val = Except.ok yhat_v)
    (h4 : ∀ v ∈ yhat_v, v ∈ y_val)
    (h5 : model.predict X_test = Except.ok yhat_te)
    (h6 : ∀ v ∈ yhat_te, v ∈ y_test) :
    analyze_model X_train y_train X_val y_val X_test y_test model =
      Except.ok (plot_confusion_matrix y_train yhat_tr,
        plot_confusion_matrix y_val yhat_v, plot_confusion_matrix y_test yhat_te) ∧
    ((plot_confusion_matrix y_train yhat_tr).x = uniqueSorted y_train ∧
      (plot_confusion_matrix y_train yhat_tr).z.length = (uniqueSorted y_train).length ∧
      ∀ row ∈ (plot_confusion_matrix y_train yhat_tr).z,
        row.length = (uniqueSorted y_train).length) ∧
    ((plot_confusion_matrix y_val yhat_v).x = uniqueSorted y_val ∧
      (plot_confusion_matrix y_val yhat_v).z.length = (uniqueSorted y_val).length ∧
      ∀ row ∈ (plot_confusion_matrix y_val yhat_v).z,
        row.length = (uniqueSorted y_val).length) ∧
    ((plot_confusion_matrix y_test yhat_te).x = uniqueSorted y_test ∧
      (plot_confusion_matrix y_test yhat_te).z.length = (uniqueSorted y_test).length ∧
      ∀ row ∈ (plot_confusion_matrix y_test yhat_te).z,
        row.length = (uniqueSorted y_test).length) :=
  ⟨by simp only [analyze_model, h1, h3, h5], plot_dims_of_subset y_train yhat_tr h2,
    plot_dims_of_subset y_val yhat_v h4, plot_dims_of_subset y_test yhat_te h6⟩

/-- Concrete model on numeric feature values predicting the label equal to
its input, for the C8 witness scenario. -/
def rfc_identity_probe : RandomForestClassifier Nat :=
  ⟨50, none, 100, none, fun x => Except.ok [(x : Int)]⟩

/-- C8 amended witness: three partitions with distinct singleton label sets;
the evaluation succeeds with per-partition figures. -/
theorem c8_axis_amended_witness :
    (rfc_identity_probe.predict 0 = Except.ok [0] ∧
      ∀ v ∈ ([0] : List Int), v ∈ ([0] : List Int)) ∧
    analyze_model 0 [0] 1 [1] 2 [2] rfc_identity_probe =
      Except.ok (plot_confusion_matrix [0] [0], plot_confusion_matrix [1] [1],
        plot_confusion_matrix [2] [2]) :=
  ⟨⟨rfl, by decide⟩,
    (c8_axis_amended 0 [0] 1 [1] 2 [2] rfc_identity_probe [0] [1] [2]
      rfl (by decide) rfl (by decide) rfl (by decide)).1⟩

/-- C10: hyperparameter round trip through the estimator: the model built by
`train_model` carries attributes `max_depth`, `max_features` and
`n_estimators` equal to the corresponding fields of its `Hyperparameters`
input (sklearn stores constructor parameters verbatim), so the row that
`compare_model_results` reads back from the model by attribute access is
exactly the configuration the model was trained with.  This holds for every
estimator backend and every ambient RNG state. -/
theorem c10_hyperparameter_roundtrip {α : Type}
    (fitImpl : Int → Hyperparameters → α → List Int → α → Except String (List Int))
    (rng : Int) (X_train : α) (y_train : List Int)
    (hyperparameters : Hyperparameters) :
    model_params_row (train_model fitImpl rng X_train y_train hyperparameters) =
      hyperparameters ∧
    (train_model fitImpl rng X_train y_train hyperparameters).max_depth =
      hyperparameters.max_depth ∧
    (train_model fitImpl rng X_train y_train hyperparameters).max_features =
      hyperparameters.max_features ∧
    (train_model fitImpl rng X_train y_train hyperparameters).n_estimators =
      hyperparameters.n_estimators :=
  ⟨rfl, rfl, rfl, rfl⟩

/-- Fit backend used to exhibit RNG dependence: the learned predictor returns
the seed the fit consumed, a minimal stand-in for an estimator whose fit
result depends on the RNG draw (as the bootstrap sampling of a random forest
does). -/
def fit_probe : Int → Hyperparameters → Unit → List Int → Unit → Except String (List Int) :=
  fun seed _ _ _ => fun _ => Except.ok [seed]

/-- The first grid point of the default workflow search space. -/
def hp_default : Hyperparameters := ⟨50, none, 100⟩

/-- C9: `train_model` does not pin the estimator RNG: `vars(hyperparameters)`
contains no `random_state`, so the constructed model keeps `random_state =
None` and the fit draws from the ambient global RNG; two trainings with
identical task inputs (features, labels, hyperparameters) but different
ambient RNG states can return different models, so `train_model` is not a
function of its cached inputs alone. -/
theorem c9_rng_unpinned :
    (train_model fit_probe 0 () [0] hp_default).random_state = none ∧
    (train_model fit_probe 0 () [0] hp_default).predict () = Except.ok [0] ∧
    (train_model fit_probe 1 () [0] hp_default).predict () = Except.ok [1] ∧
    (train_model fit_probe 0 () [0] hp_default).predict () ≠
      (train_model fit_probe 1 () [0] hp_default).predict () := by
  refine ⟨rfl, rfl, rfl, ?_⟩
  intro h
  have h2 : Except.ok ([0] : List Int) = Except.ok ([1] : List Int) := h
  have h3 : ([0] : List Int) = [1] := Except.ok.inj h2
  exact absurd h3 (by decide)

end WinePipeline
